import Mathlib

/-!
Verification of the mcp-example repository (an MCP host in `server.ts`,
embedded in the README, and a driver in `src/client.ts`).

The development shallowly embeds the data operations the host and driver
perform.  JavaScript strings are modelled as Lean `String`s (lists of
characters); `JSON.parse` and `JSON.stringify` are modelled by an executable
parser/printer over a `JsonVal` type, with JSON numbers represented as exact
rationals (IEEE-754 rounding of decimal literals is not modelled; every
number evaluated in this development is a small integer, where the two
agree).  The user store is the in-memory array obtained from the cached
`import("./data/users.json")` module: every read and write in the process
goes through that single array, and `fs.writeFile` is modelled by a boolean
that tells whether the write succeeds.
-/

namespace McpSpec

/-- Whitespace characters recognised by JavaScript `trim`/`parseInt`
(ASCII subset; Unicode space characters are not modelled, and none occur in
any value this development evaluates). -/
def isJsSpace (c : Char) : Bool :=
  c = ' ' || c = '\t' || c = '\n' || c = '\r' || c = Char.ofNat 11 || c = Char.ofNat 12

/-- Whitespace accepted between tokens by `JSON.parse` (per the JSON grammar:
space, tab, line feed, carriage return). -/
def isJsonWs (c : Char) : Bool :=
  c = ' ' || c = '\t' || c = '\n' || c = '\r'

/-- JSON values as produced by `JSON.parse`.  Object fields keep property
order; duplicate keys are resolved during parsing exactly as in JavaScript
(last value wins, first position kept). -/
inductive JsonVal where
  | null
  | bool (b : Bool)
  | num (q : Rat)
  | str (s : String)
  | arr (elems : List JsonVal)
  | obj (fields : List (String × JsonVal))

/-- Numeric value of a decimal digit run. -/
def digitsVal (l : List Char) : Nat :=
  l.foldl (fun a c => a * 10 + (c.toNat - 48)) 0

/-- Value of a hexadecimal digit, `none` for any other character. -/
def hexDigitVal (c : Char) : Option Nat :=
  if '0' ≤ c ∧ c ≤ '9' then some (c.toNat - 48)
  else if 'a' ≤ c ∧ c ≤ 'f' then some (c.toNat - 87)
  else if 'A' ≤ c ∧ c ≤ 'F' then some (c.toNat - 55)
  else none

def isHexDigit (c : Char) : Bool := (hexDigitVal c).isSome

/-- Numeric value of a hexadecimal digit run. -/
def hexVal (l : List Char) : Nat :=
  l.foldl (fun a c => a * 16 + ((hexDigitVal c).getD 0)) 0

def skipWs (l : List Char) : List Char := l.dropWhile isJsonWs

/-- Body of a JSON string literal after the opening quote: the decoded
characters and the remaining input after the closing quote.  Escapes follow
`JSON.parse` (`\" \\ \/ \b \f \n \r \t \uXXXX`); unescaped control
characters are rejected.  Surrogate-pair recombination is not modelled (no
string this development evaluates contains a `\u` escape). -/
def parseStringChars : Nat → List Char → Option (List Char × List Char)
  | 0, _ => none
  | _, [] => none
  | fuel + 1, c :: r =>
    if c = '"' then some ([], r)
    else if c = '\\' then
      match r with
      | [] => none
      | e :: r2 =>
        let esc : Option (Char × List Char) :=
          if e = '"' then some ('"', r2)
          else if e = '\\' then some ('\\', r2)
          else if e = '/' then some ('/', r2)
          else if e = 'b' then some (Char.ofNat 8, r2)
          else if e = 'f' then some (Char.ofNat 12, r2)
          else if e = 'n' then some ('\n', r2)
          else if e = 'r' then some ('\r', r2)
          else if e = 't' then some ('\t', r2)
          else if e = 'u' then
            match r2 with
            | h1 :: h2 :: h3 :: h4 :: r3 =>
              match hexDigitVal h1, hexDigitVal h2, hexDigitVal h3, hexDigitVal h4 with
              | some a, some b, some c2, some d =>
                some (Char.ofNat (((a * 16 + b) * 16 + c2) * 16 + d), r3)
              | _, _, _, _ => none
            | _ => none
          else none
        match esc with
        | none => none
        | some (ch, rest) =>
          match parseStringChars fuel rest with
          | none => none
          | some (cs, rest2) => some (ch :: cs, rest2)
    else if c.toNat < 32 then none
    else
      match parseStringChars fuel r with
      | none => none
      | some (cs, rest) => some (c :: cs, rest)

/-- Integer part of a JSON number (after the optional sign): a lone `0`, or a
nonzero digit followed by digits, exactly as in the JSON grammar (so `01`
is rejected at a higher level, as `JSON.parse` rejects it). -/
def parseIntPart : List Char → Option (Nat × List Char)
  | [] => none
  | '0' :: r => some (0, r)
  | c :: r =>
    if c.isDigit then
      some (digitsVal ((c :: r).takeWhile Char.isDigit), (c :: r).dropWhile Char.isDigit)
    else none

/-- Optional fraction part of a JSON number; yields the fraction digits
(empty when absent). -/
def parseFracPart : List Char → Option (List Char × List Char)
  | '.' :: r =>
    let ds := r.takeWhile Char.isDigit
    if ds.isEmpty then none
    else some (ds, r.dropWhile Char.isDigit)
  | l => some ([], l)

/-- Optional exponent part of a JSON number; yields the signed exponent. -/
def parseExpPart : List Char → Option (Int × List Char)
  | [] => some (0, [])
  | c :: r =>
    if c = 'e' ∨ c = 'E' then
      let (es, r1) : Int × List Char :=
        match r with
        | '+' :: r2 => (1, r2)
        | '-' :: r2 => (-1, r2)
        | _ => (1, r)
      let ds := r1.takeWhile Char.isDigit
      if ds.isEmpty then none
      else some (es * (digitsVal ds : Int), r1.dropWhile Char.isDigit)
    else some (0, c :: r)

/-- A JSON number literal, as an exact rational: the mantissa (sign,
integer digits, fraction digits) and decimal exponent are assembled with
integer arithmetic and one final division. -/
def parseNumber (l : List Char) : Option (Rat × List Char) :=
  let (neg, l1) : Bool × List Char :=
    match l with
    | '-' :: r => (true, r)
    | _ => (false, l)
  match parseIntPart l1 with
  | none => none
  | some (ip, l2) =>
    match parseFracPart l2 with
    | none => none
    | some (fds, l3) =>
      match parseExpPart l3 with
      | none => none
      | some (e, l4) =>
        let mantNat : Nat := ip * 10 ^ fds.length + digitsVal fds
        let mant : Int := if neg then -(mantNat : Int) else (mantNat : Int)
        let q : Rat :=
          if 0 ≤ e then mkRat (mant * ((10 ^ e.toNat : Nat) : Int)) (10 ^ fds.length)
          else mkRat mant (10 ^ fds.length * 10 ^ (-e).toNat)
        some (q, l4)

/-- Replace the value of an existing key in place, or append a new pair:
the semantics of a JavaScript property write, used both for duplicate keys
during parsing and for object spread. -/
def objSet (fs : List (String × JsonVal)) (k : String) (v : JsonVal) :
    List (String × JsonVal) :=
  match fs with
  | [] => [(k, v)]
  | (k', v') :: rest => if k' = k then (k', v) :: rest else (k', v') :: objSet rest k v

mutual

/-- One JSON value starting at the given input (leading whitespace allowed),
returning the value and the rest of the input.  Fuel-indexed to make the
recursion structural; `runJsonParse` supplies enough fuel for any input. -/
def parseVal : Nat → List Char → Option (JsonVal × List Char)
  | 0, _ => none
  | fuel + 1, l =>
    match skipWs l with
    | [] => none
    | c :: r =>
      if c = '"' then
        match parseStringChars (r.length + 1) r with
        | none => none
        | some (cs, rest) => some (JsonVal.str (String.mk cs), rest)
      else if c = '\x7b' then
        match skipWs r with
        | '\x7d' :: rest => some (JsonVal.obj [], rest)
        | l2 => parseMembers fuel [] l2
      else if c = '[' then
        match skipWs r with
        | ']' :: rest => some (JsonVal.arr [], rest)
        | l2 => parseItems fuel [] l2
      else if c = 't' then
        match r with
        | 'r' :: 'u' :: 'e' :: rest => some (JsonVal.bool true, rest)
        | _ => none
      else if c = 'f' then
        match r with
        | 'a' :: 'l' :: 's' :: 'e' :: rest => some (JsonVal.bool false, rest)
        | _ => none
      else if c = 'n' then
        match r with
        | 'u' :: 'l' :: 'l' :: rest => some (JsonVal.null, rest)
        | _ => none
      else if c = '-' ∨ c.isDigit then
        match parseNumber (c :: r) with
        | none => none
        | some (q, rest) => some (JsonVal.num q, rest)
      else none

/-- Array elements after `[` (first element expected), accumulating in order. -/
def parseItems : Nat → List JsonVal → List Char → Option (JsonVal × List Char)
  | 0, _, _ => none
  | fuel + 1, acc, l =>
    match parseVal fuel l with
    | none => none
    | some (v, rest) =>
      match skipWs rest with
      | ',' :: rest2 => parseItems fuel (acc ++ [v]) rest2
      | ']' :: rest2 => some (JsonVal.arr (acc ++ [v]), rest2)
      | _ => none

/-- Object members after an opening brace (first member expected),
accumulating with JavaScript duplicate-key semantics. -/
def parseMembers : Nat → List (String × JsonVal) → List Char → Option (JsonVal × List Char)
  | 0, _, _ => none
  | fuel + 1, acc, l =>
    match skipWs l with
    | '"' :: r =>
      match parseStringChars (r.length + 1) r with
      | none => none
      | some (ks, rest) =>
        match skipWs rest with
        | ':' :: rest2 =>
          match parseVal fuel rest2 with
          | none => none
          | some (v, rest3) =>
            let acc2 := objSet acc (String.mk ks) v
            match skipWs rest3 with
            | ',' :: rest4 => parseMembers fuel acc2 rest4
            | '\x7d' :: rest4 => some (JsonVal.obj acc2, rest4)
            | _ => none
        | _ => none
    | _ => none

end

/-- Model of `JSON.parse`: parse one value and require only whitespace after
it; `none` models the thrown `SyntaxError`. -/
def runJsonParse (s : String) : Option JsonVal :=
  match parseVal (2 * s.length + 2) s.data with
  | none => none
  | some (v, rest) => if skipWs rest = [] then some v else none

/-- Lower-case hexadecimal digit character. -/
def hexChar (n : Nat) : Char :=
  if n < 10 then Char.ofNat (48 + n) else Char.ofNat (87 + n)

/-- Escaping of one character inside a `JSON.stringify` string literal. -/
def escapeStringChar (c : Char) : List Char :=
  if c = '"' then ['\\', '"']
  else if c = '\\' then ['\\', '\\']
  else if c = '\n' then ['\\', 'n']
  else if c = '\r' then ['\\', 'r']
  else if c = '\t' then ['\\', 't']
  else if c = Char.ofNat 8 then ['\\', 'b']
  else if c = Char.ofNat 12 then ['\\', 'f']
  else if c.toNat < 32 then
    ['\\', 'u', '0', '0', hexChar (c.toNat / 16), hexChar (c.toNat % 16)]
  else [c]

/-- A `JSON.stringify` string literal. -/
def stringifyStr (s : String) : String :=
  "\"" ++ String.mk ((s.data.map escapeStringChar).foldr (fun a b => a ++ b) []) ++ "\""

mutual

/-- Model of `JSON.stringify` (compact form, as used by the resource
handlers).  Integral numbers print like JavaScript integers; non-integral
numbers never occur in any value this development prints, so JavaScript
float formatting is not modelled for them. -/
def stringifyVal : JsonVal → String
  | JsonVal.null => "null"
  | JsonVal.bool true => "true"
  | JsonVal.bool false => "false"
  | JsonVal.num q => if q.den = 1 then toString q.num else toString q
  | JsonVal.str s => stringifyStr s
  | JsonVal.arr xs => "[" ++ stringifyElems xs ++ "]"
  | JsonVal.obj fs => "\x7b" ++ stringifyFields fs ++ "\x7d"

/-- Comma-separated array elements. -/
def stringifyElems : List JsonVal → String
  | [] => ""
  | [x] => stringifyVal x
  | x :: y :: xs => stringifyVal x ++ "," ++ stringifyElems (y :: xs)

/-- Comma-separated object members. -/
def stringifyFields : List (String × JsonVal) → String
  | [] => ""
  | [(k, v)] => stringifyStr k ++ ":" ++ stringifyVal v
  | (k, v) :: p :: fs => stringifyStr k ++ ":" ++ stringifyVal v ++ "," ++ stringifyFields (p :: fs)

end

/-- True when a `parseInt` input (after whitespace and sign) carries the
`0x`/`0X` prefix that switches `parseInt` to hexadecimal. -/
def startsHex : List Char → Bool
  | '0' :: c :: _ => c = 'x' || c = 'X'
  | _ => false

/-- Digits of `parseInt` after whitespace and sign: hexadecimal when the
input starts `0x`/`0X`, decimal otherwise; `none` models `NaN`. -/
def parseUnsigned (l : List Char) : Option Int :=
  if startsHex l then
    if ((l.drop 2).takeWhile isHexDigit).isEmpty then none
    else some (hexVal ((l.drop 2).takeWhile isHexDigit))
  else
    if (l.takeWhile Char.isDigit).isEmpty then none
    else some (digitsVal (l.takeWhile Char.isDigit))

/-- Model of JavaScript `parseInt(s)` with no radix argument: skip leading
whitespace, take an optional sign, then the longest digit prefix (the value
is exact here, where JavaScript would round past 2^53; every id compared in
this development is small).  `none` models `NaN`. -/
def jsParseInt (s : String) : Option Int :=
  match s.data.dropWhile isJsSpace with
  | [] => none
  | '-' :: r => (parseUnsigned r).map (fun v => -v)
  | '+' :: r => parseUnsigned r
  | l => parseUnsigned l

/-- Characters of the leading fence marker the random-user tool strips:
the regular expression `/^```json/` in `server.ts`. -/
def fenceOpen : List Char := "```json".data

/-- Characters of the trailing fence marker the random-user tool strips:
the regular expression `/```$/` in `server.ts`. -/
def fenceClose : List Char := "```".data

/-- JavaScript `String.prototype.trim` on the character list. -/
def trimChars (l : List Char) : List Char :=
  ((l.dropWhile isJsSpace).reverse.dropWhile isJsSpace).reverse

/-- Result of `.replace(/^```json/, "")`. -/
def stripOpenFence (l : List Char) : List Char :=
  if fenceOpen.isPrefixOf l then l.drop 7 else l

/-- Result of `.replace(/```$/, "")`. -/
def stripCloseFence (l : List Char) : List Char :=
  if fenceClose.isSuffixOf l then (l.reverse.drop 3).reverse else l

/-- The normalization pipeline of `create-random-user` before `JSON.parse`:
`text.trim().replace(/^```json/, "").replace(/```$/, "").trim()`. -/
def normChars (l : List Char) : List Char :=
  trimChars (stripCloseFence (stripOpenFence (trimChars l)))

/-- String-level wrapper for the normalization pipeline. -/
def normalizeAiText (s : String) : String :=
  String.mk (normChars s.data)

/-! Host side (`server.ts`): the user store, the two tools and the two
resources the claims are about.

The store is the array held by the cached `import("./data/users.json")`
module: `createUser` and both resource handlers all obtain the same
in-memory array, so it is the observable state.  `fs.writeFile` either
succeeds or throws; the boolean `writeOk` selects which. -/

/-- A content item, `{ type, text }`, the result shape of a tool call. -/
structure ContentItem where
  ctype : String
  text : String
deriving DecidableEq

/-- One entry of a resource read result, `{ uri, text, mimeType }`. -/
structure ResourceContent where
  uri : String
  text : String
  mimeType : String
deriving DecidableEq

/-- Enumerable own fields contributed by `...v` in a JavaScript object
spread: an object's fields; index keys for strings and arrays; nothing for
primitives. -/
def spreadFields : JsonVal → List (String × JsonVal)
  | JsonVal.obj fs => fs
  | JsonVal.str s => s.data.enum.map (fun p => (toString p.1, JsonVal.str (String.mk [p.2])))
  | JsonVal.arr xs => xs.enum.map (fun p => (toString p.1, p.2))
  | _ => []

/-- The object literal `{ id: newUserId, ...userData }`: start from the `id`
field and apply each spread field as a property write. -/
def objSpread (base : List (String × JsonVal)) (v : JsonVal) : List (String × JsonVal) :=
  (spreadFields v).foldl (fun acc p => objSet acc p.1 p.2) base

/-- Outcome of `createUser`: the returned id or the thrown write error,
together with the in-memory array after the call. -/
structure CreateUserOutcome where
  result : Except Unit Nat
  store : List JsonVal

/-- The helper `createUser` of `server.ts`: reads the cached users array,
computes `newUserId = allUsers.length + 1`, pushes `{ id: newUserId,
...userData }` into the array, then writes the file.  The push happens
before the write, so the array keeps the new record even when the write
throws. -/
def createUser (store : List JsonVal) (userData : JsonVal) (writeOk : Bool) :
    CreateUserOutcome :=
  let newUserId := store.length + 1
  let updated := store ++ [JsonVal.obj (objSpread [("id", JsonVal.num (newUserId : Rat))] userData)]
  ⟨if writeOk then Except.ok newUserId else Except.error (), updated⟩

/-- Success content of both user-creating tools. -/
def successItem (n : Nat) : ContentItem :=
  ⟨"text", "User " ++ toString n ++ " created successfully"⟩

/-- Failure content of the `create-user` tool's catch branch. -/
def failSaveItem : ContentItem :=
  ⟨"text", "Failed to save user"⟩

/-- Failure content of the `create-random-user` tool (non-text reply, parse
failure, or any throw inside its try block). -/
def failGenItem : ContentItem :=
  ⟨"text", "Failed to generate user data"⟩

/-- Arguments of the `create-user` tool after schema validation. -/
structure UserParams where
  name : String
  email : String
  address : String
  phone : String

/-- The validated `create-user` arguments as the object passed to
`createUser`. -/
def userParamsJson (p : UserParams) : JsonVal :=
  JsonVal.obj [("name", JsonVal.str p.name), ("email", JsonVal.str p.email),
    ("address", JsonVal.str p.address), ("phone", JsonVal.str p.phone)]

/-- The `create-user` tool handler: try `createUser`, report the new id on
success, report failure when the write throws.  Returns the content item and
the in-memory store after the call. -/
def createUserTool (store : List JsonVal) (p : UserParams) (writeOk : Bool) :
    ContentItem × List JsonVal :=
  let o := createUser store (userParamsJson p) writeOk
  match o.result with
  | Except.ok n => (successItem n, o.store)
  | Except.error _ => (failSaveItem, o.store)

/-- The sampling reply content received by `create-random-user`,
`aiResponse.content`. -/
structure SamplingReply where
  ctype : String
  text : String

/-- The `create-random-user` tool handler: reject a non-text reply, then
normalize and `JSON.parse` the reply text, then call `createUser`; the try
block turns a parse failure or a write failure into the generation-failure
content item.  Note there is no check that the parsed value matches the
user schema before `createUser` runs. -/
def createRandomUserTool (reply : SamplingReply) (store : List JsonVal) (writeOk : Bool) :
    ContentItem × List JsonVal :=
  if reply.ctype ≠ "text" then (failGenItem, store)
  else
    match runJsonParse (normalizeAiText reply.text) with
    | none => (failGenItem, store)
    | some v =>
      let o := createUser store v writeOk
      match o.result with
      | Except.ok n => (successItem n, o.store)
      | Except.error _ => (failGenItem, o.store)

/-- Field lookup on a parsed JSON value, modelling JavaScript property
access (`undefined` is `none`). -/
def getField (v : JsonVal) (k : String) : Option JsonVal :=
  match v with
  | JsonVal.obj fs => (fs.find? (fun p => p.1 == k)).map (fun p => p.2)
  | _ => none

/-- The predicate of `allUsers.find` in the `user-details` handler:
`user.id === parseInt(userId)`.  Strict equality is false whenever `id` is
missing or non-numeric, or `parseInt` returned `NaN`. -/
def idMatches (userId : String) (u : JsonVal) : Bool :=
  match getField u "id", jsParseInt userId with
  | some (JsonVal.num q), some n => decide (q = (n : Rat))
  | _, _ => false

/-- The not-found payload of the `user-details` handler,
`JSON.stringify({ error: "User not found" })`. -/
def notFoundText : String :=
  stringifyVal (JsonVal.obj [("error", JsonVal.str "User not found")])

/-- The `users://{userId}/profile` resource handler: find the first user
whose `id` strictly equals `parseInt(userId)`; answer with the user's JSON,
or with the not-found payload, always as successful content (the handler
never throws). -/
def userDetailsRead (store : List JsonVal) (uri : String) (userId : String) :
    List ResourceContent :=
  match store.find? (idMatches userId) with
  | none => [⟨uri, notFoundText, "application/json"⟩]
  | some u => [⟨uri, stringifyVal u, "application/json"⟩]

/-- The `users://all` resource handler: `JSON.stringify` of the whole users
array. -/
def usersAllRead (store : List JsonVal) (uri : String) : List ResourceContent :=
  [⟨uri, stringifyVal (JsonVal.arr store), "application/json"⟩]

/-! Driver side (`src/client.ts`): the sampling request handler, the session
menu, and the autonomous task loop. -/

/-- One entry of `request.params.messages`, with its `content` flattened to
the type tag and text. -/
structure SamplingMessage where
  ctype : String
  text : String

/-- The reply shape of the driver's `CreateMessageRequestSchema` handler. -/
structure CreateMessageResult where
  role : String
  model : String
  stopReason : String
  contentType : String
  contentText : String
deriving DecidableEq

/-- The helper `handleServerMessagePrompt`: skip non-text content, ask the
user whether to run the prompt (the `confirm` answer is the `shouldRun`
argument), then call the generation backend.  `gen` models `generateText`,
whose failure is a thrown error, and the helper has no catch. -/
def handleServerMessagePrompt (shouldRun : Bool) (gen : String → Except String String)
    (m : SamplingMessage) : Except String (Option String) :=
  if m.ctype ≠ "text" then Except.ok none
  else if shouldRun then
    match gen m.text with
    | Except.ok t => Except.ok (some t)
    | Except.error e => Except.error e
  else Except.ok none

/-- The handler's loop over `request.params.messages`: one
`handleServerMessagePrompt` call per entry, pushing each non-null result,
with a thrown backend error propagating out.  The oracles are indexed by
loop position. -/
def collectGenerated (confirms : Nat → Bool) (gen : Nat → String → Except String String) :
    Nat → List SamplingMessage → Except String (List String)
  | _, [] => Except.ok []
  | i, m :: ms =>
    match handleServerMessagePrompt (confirms i) (gen i) m with
    | Except.error e => Except.error e
    | Except.ok none => collectGenerated confirms gen (i + 1) ms
    | Except.ok (some t) =>
      match collectGenerated confirms gen (i + 1) ms with
      | Except.error e => Except.error e
      | Except.ok ts => Except.ok (t :: ts)

/-- The driver's `CreateMessageRequestSchema` handler: collect the generated
texts and reply with the fixed role, model identifier and stop reason, and a
single text content joining the texts with newlines. -/
def createMessageHandler (confirms : Nat → Bool) (gen : Nat → String → Except String String)
    (messages : List SamplingMessage) : Except String CreateMessageResult :=
  match collectGenerated confirms gen 0 messages with
  | Except.error e => Except.error e
  | Except.ok ts =>
    Except.ok ⟨"user", "gemini-2.0-flash", "endTurn", "text", String.intercalate "\n" ts⟩

/-- A reply resolving the host's pending sampling call: a result or an error
response. -/
inductive SamplingResponse where
  | result (r : CreateMessageResult)
  | error (e : String)
deriving DecidableEq

/-- Modelled from the spec: the Envelope's dispatch of an incoming request
to its registered handler lives in the external MCP SDK, not in this
repository.  Per the spec, a handler error "resolves the waiting Pending
Call with a failure rather than hanging": the dispatcher runs the handler
and converts a thrown error into an error response, so exactly one reply is
produced either way. -/
def dispatchCreateMessage (confirms : Nat → Bool) (gen : Nat → String → Except String String)
    (messages : List SamplingMessage) : SamplingResponse :=
  match createMessageHandler confirms gen messages with
  | Except.ok r => SamplingResponse.result r
  | Except.error e => SamplingResponse.error e

/-- The flows a session-loop iteration can run, one per `switch` case body
of `main` in `client.ts`. -/
inductive SessionAction where
  | toolsFlow
  | resourcesFlow
  | promptsFlow
  | queryFlow
  | autonomousFlow
deriving DecidableEq

/-- The choices offered by the session menu,
`choices: ["Query", "Tools", "Resources", "Prompts"]`. -/
def menuChoices : List String := ["Query", "Tools", "Resources", "Prompts"]

/-- The `switch (selectedOption)` of `main`, as the list of flows one
iteration runs for a selected option.  The `"Tools"`, `"Resources"` and
`"Prompts"` cases end with `break`; the `"Query"` case has no `break`, so by
JavaScript switch fall-through it continues into the `"Autonomous Task"`
case body before that case's `break`. -/
def dispatchMenuChoice (choice : String) : List SessionAction :=
  if choice = "Tools" then [SessionAction.toolsFlow]
  else if choice = "Resources" then [SessionAction.resourcesFlow]
  else if choice = "Prompts" then [SessionAction.promptsFlow]
  else if choice = "Query" then [SessionAction.queryFlow, SessionAction.autonomousFlow]
  else if choice = "Autonomous Task" then [SessionAction.autonomousFlow]
  else []

/-- The `maxSteps: 5` argument `handleAutonomousTask` passes to
`generateText`. -/
def autonomousTaskMaxSteps : Nat := 5

/-- Modelled from the spec: the multi-step tool-use loop inside the external
generation library's `generateText` (not in this repository), which the spec
describes as "an explicit step counter with a hard ceiling".  Each step
consumes one unit of the remaining budget; a step that requests a tool call
(`wantsTool`) is followed by another step while budget remains, and a step
that answers with text ends the loop.  Returns the number of steps run. -/
def stepsTaken (wantsTool : Nat → Bool) : Nat → Nat → Nat
  | _, 0 => 0
  | i, budget + 1 => if wantsTool i then 1 + stepsTaken wantsTool (i + 1) budget else 1

/-- Steps run by one `handleAutonomousTask` query: the bounded loop with the
`maxSteps: 5` budget from `client.ts`. -/
def handleAutonomousTaskSteps (wantsTool : Nat → Bool) : Nat :=
  stepsTaken wantsTool 0 autonomousTaskMaxSteps

/-- The texts produced by the per-message sub-generations, one per entry,
when the backend output at position `i` for prompt `s` is `f i s`. -/
def genList (f : Nat → String → String) : Nat → List SamplingMessage → List String
  | _, [] => []
  | i, m :: ms => f i m.text :: genList f (i + 1) ms

/-- Predicate selecting a record whose `id` field is the number `n`. -/
def hasIdN (n : Int) (u : JsonVal) : Bool :=
  match getField u "id" with
  | some (JsonVal.num q) => decide (q = (n : Rat))
  | _ => false

/-- The sampling-stub text of the spec's round-trip test. -/
def adaJsonText : String :=
  "\x7b\"name\":\"Ada\",\"email\":\"a@b.com\",\"address\":\"1 Main\",\"phone\":\"555\"\x7d"

/-- The stub text wrapped in the fenced block the normalization handles
(opening marker carrying the `json` info string). -/
def adaJsonFenced : String := "```json\n" ++ adaJsonText ++ "\n```"

/-- The stub text wrapped in a bare triple-backtick fenced block (no info
string on the opening marker). -/
def adaPlainFenced : String := "```\n" ++ adaJsonText ++ "\n```"

/-- The record appended for the stub text when the new id is `n`. -/
def adaRecord (n : Nat) : JsonVal :=
  JsonVal.obj [("id", JsonVal.num (n : Rat)), ("name", JsonVal.str "Ada"),
    ("email", JsonVal.str "a@b.com"), ("address", JsonVal.str "1 Main"),
    ("phone", JsonVal.str "555")]

/-- The record appended by `create-user` for validated parameters when the
new id is `n`. -/
def newUserRecord (n : Nat) (p : UserParams) : JsonVal :=
  JsonVal.obj [("id", JsonVal.num (n : Rat)), ("name", JsonVal.str p.name),
    ("email", JsonVal.str p.email), ("address", JsonVal.str p.address),
    ("phone", JsonVal.str p.phone)]

/-! Theorems.  Helper lemmas are shared; each claim is settled by the one
theorem carrying its id in the doc comment. -/

/-- Helper: the bounded loop never runs more steps than its budget. -/
theorem stepsTaken_le (w : Nat → Bool) : ∀ (b i : Nat), stepsTaken w i b ≤ b := by
  intro b
  induction b with
  | zero => intro i; exact Nat.le_refl 0
  | succ n ih =>
    intro i
    unfold stepsTaken
    split
    · have := ih (i + 1)
      omega
    · omega

/-- C8: every autonomous task the driver runs drives the tool-use loop with
the hard `maxSteps` ceiling of 5 from `client.ts`, so at most 5 sequential
steps are performed per query (and the loop is a total function, hence
terminates). -/
theorem autonomous_loop_bounded (wantsTool : Nat → Bool) :
    handleAutonomousTaskSteps wantsTool ≤ 5 ∧ autonomousTaskMaxSteps = 5 :=
  ⟨stepsTaken_le wantsTool 5 0, rfl⟩

/-- C9: in the session loop's switch, selecting "Query" runs the query flow
and then, by fall-through past the missing `break`, the autonomous-task
flow as well, while "Autonomous Task" is not among the offered menu
choices. -/
theorem query_falls_through_to_autonomous :
    dispatchMenuChoice "Query" = [SessionAction.queryFlow, SessionAction.autonomousFlow] ∧
    menuChoices.contains "Autonomous Task" = false ∧
    dispatchMenuChoice "Autonomous Task" = [SessionAction.autonomousFlow] :=
  ⟨rfl, rfl, rfl⟩

/-- C2 (amended): when the sampling reply text fails to parse as JSON, the
random-user tool performs no create side effect — the store is returned
unchanged — and the generation-failure content item is returned.  (The
malformed-record half of the original claim fails: parsed values are passed
to record creation without any schema check, see the counterexample.) -/
theorem createRandomUser_parse_failure_no_side_effect
    (reply : SamplingReply) (store : List JsonVal) (writeOk : Bool)
    (htype : reply.ctype = "text")
    (hparse : runJsonParse (normalizeAiText reply.text) = none) :
    createRandomUserTool reply store writeOk = (failGenItem, store) := by
  unfold createRandomUserTool
  rw [htype, hparse]
  simp

/-- Witness for C2's amended theorem at a concrete non-JSON reply. -/
theorem createRandomUser_parse_failure_no_side_effect_witness :
    createRandomUserTool ⟨"text", "not json"⟩ [] true = (failGenItem, []) :=
  createRandomUser_parse_failure_no_side_effect ⟨"text", "not json"⟩ [] true rfl rfl

/-- C2 (counterexample): the sampling reply `{"x":1}` is valid JSON that
does not match the User schema, yet the tool appends a record (the count
changes from 0 to 1) and reports success — the code performs no schema
check before the side effect. -/
theorem createRandomUser_schemaless_append :
    createRandomUserTool ⟨"text", "\x7b\"x\":1\x7d"⟩ [] true =
      (successItem 1, [JsonVal.obj [("id", JsonVal.num 1), ("x", JsonVal.num 1)]]) ∧
    (createRandomUserTool ⟨"text", "\x7b\"x\":1\x7d"⟩ [] true).2.length = 1 ∧
    ([] : List JsonVal).length = 0 :=
  ⟨rfl, rfl, rfl⟩

/-- C4 (amended): when the persistence write fails, `create-user` returns
the failure content item and never the success item; however the in-memory
users array — the store observed by subsequent reads — already holds the
appended record, because the push precedes the write. -/
theorem createUserTool_write_failure (store : List JsonVal) (p : UserParams) :
    createUserTool store p false =
      (failSaveItem, store ++ [newUserRecord (store.length + 1) p]) :=
  rfl

/-- C4 (counterexample): with an empty store and a failing write, the tool
reports failure, yet a subsequent `users://all` read returns the appended
record instead of the pre-invocation empty array. -/
theorem createUserTool_failed_write_still_mutates :
    (createUserTool [] ⟨"A", "B", "C", "D"⟩ false).1 = failSaveItem ∧
    usersAllRead [] "users://all" = [⟨"users://all", "[]", "application/json"⟩] ∧
    usersAllRead (createUserTool [] ⟨"A", "B", "C", "D"⟩ false).2 "users://all" =
      [⟨"users://all",
        "[\x7b\"id\":1,\"name\":\"A\",\"email\":\"B\",\"address\":\"C\",\"phone\":\"D\"\x7d]",
        "application/json"⟩] :=
  ⟨rfl, rfl, rfl⟩

/-- C7: a sampling request whose handling throws — in particular when the
generation backend fails — is still answered: the dispatcher resolves the
pending call with an error reply rather than leaving it unresolved.  The
second conjunct instantiates this for a single-message request whose
backend call fails. -/
theorem dispatch_error_reply :
    (∀ (confirms : Nat → Bool) (gen : Nat → String → Except String String)
        (messages : List SamplingMessage) (e : String),
      createMessageHandler confirms gen messages = Except.error e →
      dispatchCreateMessage confirms gen messages = SamplingResponse.error e) ∧
    (∀ (confirms : Nat → Bool) (gen : Nat → String → Except String String)
        (m : SamplingMessage) (e : String),
      m.ctype = "text" → confirms 0 = true → gen 0 m.text = Except.error e →
      dispatchCreateMessage confirms gen [m] = SamplingResponse.error e) := by
  constructor
  · intro confirms gen messages e h
    unfold dispatchCreateMessage
    rw [h]
  · intro confirms gen m e ht hc hg
    unfold dispatchCreateMessage createMessageHandler collectGenerated handleServerMessagePrompt
    rw [ht, hc, hg]
    simp

/-- Witness for C7 at a concrete failing backend. -/
theorem dispatch_error_reply_witness :
    dispatchCreateMessage (fun _ => true) (fun _ _ => Except.error "boom") [⟨"text", "p"⟩] =
      SamplingResponse.error "boom" :=
  dispatch_error_reply.2 (fun _ => true) (fun _ _ => Except.error "boom") ⟨"text", "p"⟩ "boom"
    rfl rfl rfl

/-- C1 (amended): for every starting store, when the sampling backend
returns the stub text bare, or wrapped in the fenced block whose opening
marker carries the `json` info string, the random-user tool appends exactly
one record with id `count + 1` and the four given fields, and reports that
id in the success content item.  (A bare triple-backtick fence without the
info string is not stripped by the code — see the counterexample.) -/
theorem createRandomUser_round_trip (store : List JsonVal) :
    createRandomUserTool ⟨"text", adaJsonText⟩ store true =
      (successItem (store.length + 1), store ++ [adaRecord (store.length + 1)]) ∧
    createRandomUserTool ⟨"text", adaJsonFenced⟩ store true =
      (successItem (store.length + 1), store ++ [adaRecord (store.length + 1)]) :=
  ⟨rfl, rfl⟩

/-- C1 (counterexample): when the backend returns the stub text fenced in
bare triple backticks (no `json` info string), the normalization does not
strip the opening marker, the parse fails, no record is appended, and the
tool reports failure instead of success. -/
theorem createRandomUser_plain_fence_fails :
    createRandomUserTool ⟨"text", adaPlainFenced⟩ [] true = (failGenItem, []) :=
  rfl

/-- Helper: a list whose head does not satisfy the predicate is unchanged
by `dropWhile`. -/
theorem dropWhile_eq_self_of_head {α : Type} (p : α → Bool) (l : List α)
    (h : ∀ c, l.head? = some c → p c = false) : l.dropWhile p = l := by
  cases l with
  | nil => rfl
  | cons a t => exact List.dropWhile_cons_of_neg (by simp [h a rfl])

/-- C5: reading `users://\x7buserId\x7d/profile` for a userId that matches no
record in the store returns the successful not-found content item — the
handler is a total function into contents, so no protocol-level error is
raised. -/
theorem userDetails_not_found (store : List JsonVal) (uri userId : String)
    (h : ∀ u ∈ store, idMatches userId u = false) :
    userDetailsRead store uri userId = [⟨uri, notFoundText, "application/json"⟩] := by
  unfold userDetailsRead
  have hf : store.find? (idMatches userId) = none := by
    rw [List.find?_eq_none]
    intro u hu
    simp [h u hu]
  rw [hf]

/-- Witness for C5 at a store holding one record with id 1 and the absent
userId 99. -/
theorem userDetails_not_found_witness :
    userDetailsRead [JsonVal.obj [("id", JsonVal.num 1)]] "users://99/profile" "99" =
      [⟨"users://99/profile", "\x7b\"error\":\"User not found\"\x7d", "application/json"⟩] := by
  have hall : ∀ u ∈ [JsonVal.obj [("id", JsonVal.num 1)]], idMatches "99" u = false := by
    intro u hu
    rw [List.mem_singleton] at hu
    subst hu
    rfl
  rw [userDetails_not_found _ "users://99/profile" "99" hall]
  rfl

/-- Helper: the per-message loop produces exactly the backend outputs, in
order, when every entry is text, every confirmation is given, and the
backend succeeds. -/
theorem collectGenerated_ok (confirms : Nat → Bool) (gen : Nat → String → Except String String)
    (f : Nat → String → String)
    (hconf : ∀ i, confirms i = true)
    (hgen : ∀ i s, gen i s = Except.ok (f i s)) :
    ∀ (i : Nat) (msgs : List SamplingMessage), (∀ m ∈ msgs, m.ctype = "text") →
      collectGenerated confirms gen i msgs = Except.ok (genList f i msgs) := by
  intro i msgs
  induction msgs generalizing i with
  | nil => intro _; rfl
  | cons m ms ih =>
    intro hall
    have hm : m.ctype = "text" := hall m (List.mem_cons_self m ms)
    have hms : ∀ m' ∈ ms, m'.ctype = "text" := fun m' hm' => hall m' (List.mem_cons_of_mem m hm')
    unfold collectGenerated handleServerMessagePrompt
    rw [hm, hconf i, hgen i]
    simp only [ne_eq, if_true, if_neg (by trivial : ¬ ("text" ≠ "text"))]
    rw [ih (i + 1) hms]
    rfl

/-- Helper: one output per message entry. -/
theorem genList_length (f : Nat → String → String) :
    ∀ (i : Nat) (msgs : List SamplingMessage), (genList f i msgs).length = msgs.length := by
  intro i msgs
  induction msgs generalizing i with
  | nil => rfl
  | cons m ms ih => simp [genList, ih (i + 1)]

/-- C3: for every incoming sampling request whose entries are all text,
with the user confirming each prompt and the backend succeeding, the
driver's handler replies with the fixed role, model identifier and stop
reason, and a single text content equal to one sub-generation output per
message entry, joined with newline separators (the output list has exactly
one element per entry). -/
theorem createMessageHandler_shape (confirms : Nat → Bool)
    (gen : Nat → String → Except String String) (f : Nat → String → String)
    (messages : List SamplingMessage)
    (htext : ∀ m ∈ messages, m.ctype = "text")
    (hconf : ∀ i, confirms i = true)
    (hgen : ∀ i s, gen i s = Except.ok (f i s)) :
    createMessageHandler confirms gen messages =
      Except.ok ⟨"user", "gemini-2.0-flash", "endTurn", "text",
        String.intercalate "\n" (genList f 0 messages)⟩ ∧
    (genList f 0 messages).length = messages.length := by
  constructor
  · unfold createMessageHandler
    rw [collectGenerated_ok confirms gen f hconf hgen 0 messages htext]
  · exact genList_length f 0 messages

/-- Witness for C3 at a two-message request with position-indexed outputs. -/
theorem createMessageHandler_shape_witness :
    createMessageHandler (fun _ => true) (fun i _ => Except.ok (toString i))
        [⟨"text", "a"⟩, ⟨"text", "b"⟩] =
      Except.ok ⟨"user", "gemini-2.0-flash", "endTurn", "text", "0\n1"⟩ := by
  have h := (createMessageHandler_shape (fun _ => true) (fun i _ => Except.ok (toString i))
      (fun i _ => toString i) [⟨"text", "a"⟩, ⟨"text", "b"⟩]
      (by
        intro m hm
        simp only [List.mem_cons, List.not_mem_nil, or_false] at hm
        rcases hm with rfl | rfl <;> rfl)
      (fun _ => rfl) (fun _ _ => rfl)).1
  rw [h]
  rfl

/-- Helper: trimming is the identity when both whitespace passes are. -/
theorem trimChars_eq_self (l : List Char)
    (ha : l.dropWhile isJsSpace = l) (hb : l.reverse.dropWhile isJsSpace = l.reverse) :
    trimChars l = l := by
  unfold trimChars
  rw [ha, hb, List.reverse_reverse]

/-- Helper: trimming is the identity on a list with non-whitespace first
and last characters. -/
theorem trimChars_of_ends (c d : Char) (mid : List Char)
    (hc : isJsSpace c = false) (hd : isJsSpace d = false) :
    trimChars (c :: (mid ++ [d])) = c :: (mid ++ [d]) := by
  apply trimChars_eq_self
  · exact List.dropWhile_cons_of_neg (by simp [hc])
  · have hrev : (c :: (mid ++ [d])).reverse = d :: (mid.reverse ++ [c]) := by simp
    rw [hrev]
    exact List.dropWhile_cons_of_neg (by simp [hd])

/-- Helper: a list unchanged by `dropWhile` has a head failing the
predicate. -/
theorem head_false_of_dropWhile_self {α : Type} (p : α → Bool) (c : α) (xs : List α)
    (h : (c :: xs).dropWhile p = c :: xs) : p c = false := by
  cases hpc : p c
  · rfl
  · rw [List.dropWhile_cons_of_pos hpc] at h
    have hlen := (List.dropWhile_sublist (l := xs) p).length_le
    rw [h] at hlen
    simp at hlen

/-- Helper: trimming strips exactly a newline wrapped around an already
trimmed list. -/
theorem trimChars_wrap_newlines (l : List Char)
    (h1 : l.dropWhile isJsSpace = l) (h2 : l.reverse.dropWhile isJsSpace = l.reverse) :
    trimChars ('\n' :: (l ++ ['\n'])) = l := by
  unfold trimChars
  rw [List.dropWhile_cons_of_pos (by rfl)]
  rcases l with _ | ⟨c, xs⟩
  · rfl
  · have hc : isJsSpace c = false := head_false_of_dropWhile_self isJsSpace c xs h1
    rw [List.cons_append, List.dropWhile_cons_of_neg (by simp [hc])]
    have hrev : (c :: (xs ++ ['\n'])).reverse = '\n' :: (c :: xs).reverse := by simp
    rw [hrev, List.dropWhile_cons_of_pos (by rfl), h2, List.reverse_reverse]

/-- C6 (amended): the normalization strips exactly the `opening-marker
with info string` form: for every JSON text `x` with no surrounding
whitespace that does not itself start with an opening marker or end in a
closing one, a reply of `x` wrapped as ```` ```json\nx\n``` ```` normalizes
to the very string `x` that a bare reply normalizes to, hence parses to
the same value.  (A bare triple-backtick opening fence is not stripped —
see the counterexample.) -/
theorem normalize_json_fence_round_trip (x : String)
    (h1 : x.data.dropWhile isJsSpace = x.data)
    (h2 : x.data.reverse.dropWhile isJsSpace = x.data.reverse)
    (h3 : fenceOpen.isPrefixOf x.data = false)
    (h4 : fenceClose.isSuffixOf x.data = false) :
    normalizeAiText ("```json\n" ++ x ++ "\n```") = normalizeAiText x ∧
    normalizeAiText x = x ∧
    runJsonParse (normalizeAiText ("```json\n" ++ x ++ "\n```")) = runJsonParse x := by
  have hx : normalizeAiText x = x := by
    unfold normalizeAiText normChars stripOpenFence stripCloseFence
    rw [trimChars_eq_self x.data h1 h2, h3]
    simp only [Bool.false_eq_true, if_false]
    rw [h4]
    simp only [Bool.false_eq_true, if_false]
    rw [trimChars_eq_self x.data h1 h2]
  have hdata : ("```json\n" ++ x ++ "\n```").data
      = '`' :: '`' :: '`' :: 'j' :: 's' :: 'o' :: 'n' :: '\n' :: (x.data ++ ['\n', '`', '`', '`']) := by
    rw [String.data_append, String.data_append]
    rfl
  have hfenced : normalizeAiText ("```json\n" ++ x ++ "\n```") = x := by
    unfold normalizeAiText normChars
    rw [hdata]
    have hshape : '`' :: '`' :: '`' :: 'j' :: 's' :: 'o' :: 'n' :: '\n' :: (x.data ++ ['\n', '`', '`', '`'])
        = '`' :: (('`' :: '`' :: 'j' :: 's' :: 'o' :: 'n' :: '\n' :: (x.data ++ ['\n', '`', '`'])) ++ ['`']) := by
      simp
    rw [hshape, trimChars_of_ends '`' '`' _ rfl rfl, ← hshape]
    have hopen : stripOpenFence
        ('`' :: '`' :: '`' :: 'j' :: 's' :: 'o' :: 'n' :: '\n' :: (x.data ++ ['\n', '`', '`', '`']))
        = '\n' :: (x.data ++ ['\n', '`', '`', '`']) := rfl
    rw [hopen]
    have hrev3 : ('\n' :: (x.data ++ ['\n', '`', '`', '`'])).reverse
        = '`' :: '`' :: '`' :: '\n' :: (x.data.reverse ++ ['\n']) := by
      simp
    have hclose : stripCloseFence ('\n' :: (x.data ++ ['\n', '`', '`', '`']))
        = '\n' :: (x.data ++ ['\n']) := by
      unfold stripCloseFence
      have hsuff : fenceClose.isSuffixOf ('\n' :: (x.data ++ ['\n', '`', '`', '`'])) = true := by
        unfold List.isSuffixOf
        rw [hrev3]
        rfl
      rw [hsuff]
      simp only [if_true]
      rw [hrev3]
      simp
    rw [hclose, trimChars_wrap_newlines x.data h1 h2]
  refine ⟨?_, hx, ?_⟩
  · rw [hfenced, hx]
  · rw [hfenced]

/-- Witness for C6's amended theorem at the concrete text `{"a":1}`. -/
theorem normalize_json_fence_round_trip_witness :
    normalizeAiText "```json\n\x7b\"a\":1\x7d\n```" = "\x7b\"a\":1\x7d" := by
  have h := normalize_json_fence_round_trip "\x7b\"a\":1\x7d" rfl rfl rfl rfl
  exact (h.1.trans h.2.1).trans rfl

/-- C6 (counterexample): a reply fenced in bare triple backticks (no `json`
info string) keeps its opening marker through normalization — only the
closing one is stripped — and then fails to parse, while the bare reply
parses successfully: the two do not parse to the same value. -/
theorem normalize_plain_fence_not_stripped :
    normalizeAiText "```\n\x7b\"a\":1\x7d\n```" = "```\n\x7b\"a\":1\x7d" ∧
    runJsonParse (normalizeAiText "```\n\x7b\"a\":1\x7d\n```") = none ∧
    normalizeAiText "\x7b\"a\":1\x7d" = "\x7b\"a\":1\x7d" ∧
    (runJsonParse (normalizeAiText "\x7b\"a\":1\x7d")).isSome = true :=
  ⟨rfl, rfl, rfl, rfl⟩

/-- Helper: a digit character is not `parseInt` whitespace. -/
theorem isDigit_not_space (c : Char) (h : c.isDigit = true) : isJsSpace c = false := by
  cases hsp : isJsSpace c
  · rfl
  · exfalso
    unfold isJsSpace at hsp
    simp only [Bool.or_eq_true, decide_eq_true_eq] at hsp
    rcases hsp with ((((h1 | h1) | h1) | h1) | h1) | h1 <;> subst h1 <;>
      exact absurd h (by decide)

/-- Helper: `takeWhile`/`dropWhile` split an all-true run followed by a
failing head exactly at the boundary. -/
theorem takeWhile_append_of_all {α : Type} (p : α → Bool) :
    ∀ (ds rest : List α), (∀ c ∈ ds, p c = true) →
      (∀ c, rest.head? = some c → p c = false) →
      (ds ++ rest).takeWhile p = ds ∧ (ds ++ rest).dropWhile p = rest := by
  intro ds
  induction ds with
  | nil =>
    intro rest _ hr
    constructor
    · cases rest with
      | nil => rfl
      | cons a t => exact List.takeWhile_cons_of_neg (by simp [hr a rfl])
    · cases rest with
      | nil => rfl
      | cons a t => exact List.dropWhile_cons_of_neg (by simp [hr a rfl])
  | cons d t ih =>
    intro rest hall hr
    have hd : p d = true := hall d (List.mem_cons_self d t)
    have ht : ∀ c ∈ t, p c = true := fun c hc => hall c (List.mem_cons_of_mem d hc)
    obtain ⟨ih1, ih2⟩ := ih rest ht hr
    constructor
    · rw [List.cons_append, List.takeWhile_cons_of_pos hd, ih1]
    · rw [List.cons_append, List.dropWhile_cons_of_pos hd, ih2]

/-- Helper: on a string made of a nonempty decimal digit run followed by a
non-digit remainder, with no `0x` hexadecimal prefix, `parseInt` returns
exactly the value of the digit run. -/
theorem jsParseInt_digit_run (ds rest : List Char)
    (hne : ds ≠ []) (hall : ∀ c ∈ ds, c.isDigit = true)
    (hrest : ∀ c, rest.head? = some c → c.isDigit = false)
    (hnohex : startsHex (ds ++ rest) = false) :
    jsParseInt (String.mk (ds ++ rest)) = some ((digitsVal ds : Nat) : Int) := by
  rcases ds with _ | ⟨d, t⟩
  · exact absurd rfl hne
  have hd : d.isDigit = true := hall d (List.mem_cons_self d t)
  have hdrop : ((d :: t) ++ rest).dropWhile isJsSpace = (d :: t) ++ rest := by
    rw [List.cons_append]
    exact List.dropWhile_cons_of_neg (by simp [isDigit_not_space d hd])
  unfold jsParseInt
  rw [show (String.mk ((d :: t) ++ rest)).data = (d :: t) ++ rest from rfl, hdrop,
    List.cons_append]
  split
  · rename_i heq
    exact List.noConfusion heq
  · rename_i r heq
    injection heq with hh _
    rw [hh] at hd
    exact absurd hd (by decide)
  · rename_i r heq
    injection heq with hh _
    rw [hh] at hd
    exact absurd hd (by decide)
  · unfold parseUnsigned
    rw [show d :: (t ++ rest) = (d :: t) ++ rest from rfl, hnohex]
    simp only [Bool.false_eq_true, if_false]
    obtain ⟨htake, _⟩ := takeWhile_append_of_all Char.isDigit (d :: t) rest hall hrest
    rw [htake]
    rfl

/-- Helper: once `parseInt` is known to return `n`, the handler's find
predicate coincides with selecting the record whose id is `n`. -/
theorem idMatches_eq_hasIdN (userId : String) (n : Int)
    (hp : jsParseInt userId = some n) (u : JsonVal) :
    idMatches userId u = hasIdN n u := by
  unfold idMatches hasIdN
  rw [hp]
  cases hg : getField u "id" with
  | none => rfl
  | some v => cases v <;> rfl

/-- Helper: pointwise equal predicates find the same element. -/
theorem find?_congr_pred {α : Type} (p q : α → Bool) (h : ∀ u, p u = q u) (l : List α) :
    l.find? p = l.find? q := by
  rw [funext h]

/-- C10: profile matching goes through `parseInt` on the userId.  First
conjunct: a userId beginning with a nonempty decimal digit run (with no
`0x` hexadecimal prefix, which `parseInt` would read as hex instead) whose
value is the id the find selects returns that record's profile as
successful content.  Second conjunct: a userId with no leading integer
(`parseInt` gives `NaN`) returns the not-found payload.  Third conjunct:
every read returns exactly one content item — no input raises an error. -/
theorem userDetails_parseInt_matching (store : List JsonVal) (uri userId : String) :
    (∀ (ds rest : List Char) (u : JsonVal),
        userId = String.mk (ds ++ rest) → ds ≠ [] →
        (∀ c ∈ ds, c.isDigit = true) →
        (∀ c, rest.head? = some c → c.isDigit = false) →
        startsHex (ds ++ rest) = false →
        store.find? (hasIdN ((digitsVal ds : Nat) : Int)) = some u →
        userDetailsRead store uri userId = [⟨uri, stringifyVal u, "application/json"⟩]) ∧
    (jsParseInt userId = none →
        userDetailsRead store uri userId = [⟨uri, notFoundText, "application/json"⟩]) ∧
    (userDetailsRead store uri userId).length = 1 := by
  refine ⟨?_, ?_, ?_⟩
  · intro ds rest u hid hne hall hrest hnohex hfind
    subst hid
    have hp := jsParseInt_digit_run ds rest hne hall hrest hnohex
    unfold userDetailsRead
    rw [find?_congr_pred _ _ (idMatches_eq_hasIdN _ _ hp), hfind]
  · intro hp
    unfold userDetailsRead
    have hfalse : ∀ u, idMatches userId u = false := by
      intro u
      unfold idMatches
      rw [hp]
      cases hg : getField u "id" with
      | none => rfl
      | some v => cases v <;> rfl
    rw [find?_congr_pred _ _ hfalse]
    rw [show store.find? (fun _ => false) = none from by
      rw [List.find?_eq_none]; intro u _; simp]
  · unfold userDetailsRead
    cases store.find? (idMatches userId) <;> rfl

/-- Witness for C10 at a store holding the record with id 2: the userId
"2abc" matches it through its digit prefix and returns its profile, and the
digitless userId "abc" returns the not-found payload. -/
theorem userDetails_parseInt_matching_witness :
    userDetailsRead [JsonVal.obj [("id", JsonVal.num 2), ("name", JsonVal.str "Ada")]]
        "users://2abc/profile" "2abc" =
      [⟨"users://2abc/profile", "\x7b\"id\":2,\"name\":\"Ada\"\x7d", "application/json"⟩] ∧
    userDetailsRead [JsonVal.obj [("id", JsonVal.num 2), ("name", JsonVal.str "Ada")]]
        "users://abc/profile" "abc" =
      [⟨"users://abc/profile", "\x7b\"error\":\"User not found\"\x7d", "application/json"⟩] := by
  constructor
  · have h := (userDetails_parseInt_matching
        [JsonVal.obj [("id", JsonVal.num 2), ("name", JsonVal.str "Ada")]]
        "users://2abc/profile" "2abc").1 ['2'] ['a', 'b', 'c']
        (JsonVal.obj [("id", JsonVal.num 2), ("name", JsonVal.str "Ada")])
        rfl (by simp)
        (by intro c hc; rw [List.mem_singleton] at hc; subst hc; rfl)
        (by intro c hc; rw [List.head?_cons] at hc; cases hc; rfl)
        rfl rfl
    rw [h]
    rfl
  · have h := (userDetails_parseInt_matching
        [JsonVal.obj [("id", JsonVal.num 2), ("name", JsonVal.str "Ada")]]
        "users://abc/profile" "abc").2.1 rfl
    rw [h]
    rfl

end McpSpec
